import Mathlib

/-!
# WAPI scan subsystem: a shallow embedding

This file embeds the scan subsystem of the WAPI wireless-configuration
library (header `src/include/wapi.h`) in Lean 4 and proves the testable
properties of its specification against the embedding.

The repository ships only the public header: the enums, the scan-result
structure `wapi_scan_info_t` and the declarations of `wapi_scan_init`,
`wapi_scan_stat`, `wapi_scan_coll`, `wapi_dbm2mwatt`, `wapi_mwatt2dbm`,
`wapi_get_ifnames`, `wapi_get_ap`, `wapi_make_broad_ether` and
`wapi_make_null_ether`.  The types below are translated from that header;
the operations, whose C definitions are not part of the repository
snapshot, are modelled from the specification (each such definition says
so in its doc comment).

Bytes are modelled as `Nat`; byte buffers as `List Nat`.
-/

/-- Error taxonomy of the specification (section 7): typed failures
surfaced by accessors and the scan protocol. -/
inductive ScanError where
  | TruncatedStream
  | ProtocolError
  | BufferTooSmall
  | NotReady
  | PermissionError
  | DeviceError
  | ConversionOverflow
deriving DecidableEq

/-- ESSID flags, from `wapi_essid_flag_t` in `wapi.h` (values 0 and 1 in
declaration order). -/
inductive wapi_essid_flag_t where
  | WAPI_ESSID_ON
  | WAPI_ESSID_OFF
deriving DecidableEq

/-- Frequency flags, from `wapi_freq_flag_t` in `wapi.h`
(`IW_FREQ_AUTO` = 0, `IW_FREQ_FIXED` = 1). -/
inductive wapi_freq_flag_t where
  | WAPI_FREQ_AUTO
  | WAPI_FREQ_FIXED
deriving DecidableEq

/-- Bitrate flags, from `wapi_bitrate_flag_t` in `wapi.h`. -/
inductive wapi_bitrate_flag_t where
  | WAPI_BITRATE_AUTO
  | WAPI_BITRATE_FIXED
deriving DecidableEq

/-- Operating modes, from `wapi_mode_t` in `wapi.h` (the seven `IW_MODE`
variants, values 0..6 in declaration order). -/
inductive wapi_mode_t where
  | WAPI_MODE_AUTO
  | WAPI_MODE_ADHOC
  | WAPI_MODE_MANAGED
  | WAPI_MODE_MASTER
  | WAPI_MODE_REPEAT
  | WAPI_MODE_SECOND
  | WAPI_MODE_MONITOR
deriving DecidableEq

/-- The `ARPHRD_ETHER` hardware-address family constant (value 1 on
Linux), used by the access-point accessors. -/
def ARPHRD_ETHER : Nat := 1

/-- A socket address as used by the access-point accessors: an address
family plus address bytes (6 bytes for an ethernet address). -/
structure sockaddr where
  sa_family : Nat
  sa_data : List Nat
deriving DecidableEq

/-- A decoded (tag, value) pair extracted from the raw scan buffer.
Modelled from the spec: the field table of section 3 lists the tags
new-access-point marker (carrying the hardware address), ESSID value,
ESSID flag, frequency value (a mantissa/exponent pair), frequency flag,
operating mode, bit-rate value and bit-rate flag. -/
inductive FieldRecord where
  | apMarker (addr : List Nat)
  | essid (s : List Nat)
  | essidFlag (f : wapi_essid_flag_t)
  | freq (mant expo : Nat)
  | freqFlag (f : wapi_freq_flag_t)
  | mode (m : wapi_mode_t)
  | bitrate (b : Nat)
  | bitrateFlag (f : wapi_bitrate_flag_t)
deriving DecidableEq

/-- Abstract wire tag for the new-access-point marker record. -/
def TAG_NEWAP : Nat := 1

/-- Abstract wire tag for the ESSID value record. -/
def TAG_ESSID : Nat := 2

/-- Abstract wire tag for the ESSID flag record. -/
def TAG_ESSID_FLAG : Nat := 3

/-- Abstract wire tag for the frequency value record. -/
def TAG_FREQ : Nat := 4

/-- Abstract wire tag for the frequency flag record. -/
def TAG_FREQ_FLAG : Nat := 5

/-- Abstract wire tag for the operating-mode record. -/
def TAG_MODE : Nat := 6

/-- Abstract wire tag for the bit-rate value record. -/
def TAG_BITRATE : Nat := 7

/-- Abstract wire tag for the bit-rate flag record. -/
def TAG_BITRATE_FLAG : Nat := 8

/-- Little-endian integer value of a byte list, used to read the small
integer enums and the 32-bit bit-rate value of the wire contract. -/
def numOfBytes : List Nat → Nat
  | [] => 0
  | b :: bs => b % 256 + 256 * numOfBytes bs

/-- ESSID flag from its small-integer wire encoding (0 = on, per the
declaration order of `wapi_essid_flag_t`; any other value is off). -/
def essidFlagOfNat (n : Nat) : wapi_essid_flag_t :=
  if n = 0 then .WAPI_ESSID_ON else .WAPI_ESSID_OFF

/-- Frequency flag from its small-integer wire encoding. -/
def freqFlagOfNat (n : Nat) : wapi_freq_flag_t :=
  if n = 0 then .WAPI_FREQ_AUTO else .WAPI_FREQ_FIXED

/-- Bitrate flag from its small-integer wire encoding. -/
def bitrateFlagOfNat (n : Nat) : wapi_bitrate_flag_t :=
  if n = 0 then .WAPI_BITRATE_AUTO else .WAPI_BITRATE_FIXED

/-- Operating mode from its small-integer wire encoding (the `IW_MODE`
values 0..6; out-of-range values fall back to monitor, the last variant). -/
def modeOfNat (n : Nat) : wapi_mode_t :=
  if n = 0 then .WAPI_MODE_AUTO
  else if n = 1 then .WAPI_MODE_ADHOC
  else if n = 2 then .WAPI_MODE_MANAGED
  else if n = 3 then .WAPI_MODE_MASTER
  else if n = 4 then .WAPI_MODE_REPEAT
  else if n = 5 then .WAPI_MODE_SECOND
  else .WAPI_MODE_MONITOR

/-- Whether a wire tag is one of the eight recognized tags of the field
table; all other tags are skipped by the decoder. -/
def recognizedTag (tag : Nat) : Bool :=
  decide (1 ≤ tag ∧ tag ≤ 8)

/-- Modelled from the spec: the tag dispatch of the event-stream decoder
(section 4.2 step 3).  A recognized tag is decoded into a strongly-typed
`FieldRecord` per the field table; an unrecognized tag yields `none` and
is skipped by its declared length. -/
def decodeTag (tag : Nat) (payload : List Nat) : Option FieldRecord :=
  if tag = TAG_NEWAP then some (.apMarker payload)
  else if tag = TAG_ESSID then some (.essid payload)
  else if tag = TAG_ESSID_FLAG then some (.essidFlag (essidFlagOfNat (numOfBytes payload)))
  else if tag = TAG_FREQ then
    some (.freq (numOfBytes (payload.take 4)) (numOfBytes (payload.drop 4)))
  else if tag = TAG_FREQ_FLAG then some (.freqFlag (freqFlagOfNat (numOfBytes payload)))
  else if tag = TAG_MODE then some (.mode (modeOfNat (numOfBytes payload)))
  else if tag = TAG_BITRATE then some (.bitrate (numOfBytes payload))
  else if tag = TAG_BITRATE_FLAG then
    some (.bitrateFlag (bitrateFlagOfNat (numOfBytes payload)))
  else none

/-- Fuel-indexed worker for the event-stream decoder.  Each wire record
is a two-byte header (tag, declared payload length) followed by that many
payload bytes.  The fuel only serves to make the recursion structural;
`decodeFields` supplies the buffer length, which always suffices because
every step consumes at least two bytes. -/
def decodeFieldsAux : Nat → List Nat → Except ScanError (List FieldRecord)
  | _, [] => .ok []
  | _, [_] => .error .TruncatedStream
  | 0, _ :: _ :: _ => .error .TruncatedStream
  | fuel + 1, tag :: len :: rest =>
    if len ≤ rest.length then
      match decodeTag tag (rest.take len) with
      | some fr =>
        match decodeFieldsAux fuel (rest.drop len) with
        | .ok fs => .ok (fr :: fs)
        | .error e => .error e
      | none => decodeFieldsAux fuel (rest.drop len)
    else .error .TruncatedStream

/-- Modelled from the spec: the event-stream decoder of section 4.2.
Reads one record header after another; fails with `TruncatedStream` when
fewer bytes remain than a header requires or the declared payload length
exceeds the remaining buffer; dispatches on the tag, skipping
unrecognized records by their declared length; stops on exact
exhaustion. -/
def decodeFields (buf : List Nat) : Except ScanError (List FieldRecord) :=
  decodeFieldsAux buf.length buf

/-- The scan-result record, translated from `wapi_scan_info_t` in
`wapi.h` (the `next` pointer of the C linked list becomes list structure;
the `ap` pointer becomes the 6 address bytes; the C `double freq` is kept
as the undecoded mantissa/exponent pair of the wire contract, whose
floating-point interpretation is outside this embedding; no claim
inspects it). -/
structure wapi_scan_info_t where
  ap : List Nat
  has_essid : Bool
  essid : List Nat
  essid_flag : wapi_essid_flag_t
  has_freq : Bool
  freq : Nat × Nat
  has_mode : Bool
  mode : wapi_mode_t
  has_bitrate : Bool
  bitrate : Nat
deriving DecidableEq

/-- A fresh scan-result record as pushed by the aggregator at a
new-access-point marker: address set, every optional field absent. -/
def newInfo (addr : List Nat) : wapi_scan_info_t where
  ap := addr
  has_essid := false
  essid := []
  essid_flag := .WAPI_ESSID_ON
  has_freq := false
  freq := (0, 0)
  has_mode := false
  mode := .WAPI_MODE_AUTO
  has_bitrate := false
  bitrate := 0

/-- Modelled from the spec: the per-field update of the result aggregator
(section 4.3): a non-marker field sets the corresponding optional field
of the current record, last write wins.  The marker case is never reached
(the aggregator handles markers before calling this).  The frequency and
bit-rate flag records have no corresponding field in `wapi_scan_info_t`
and leave the record unchanged. -/
def wapi_scan_event (cur : wapi_scan_info_t) : FieldRecord → wapi_scan_info_t
  | .apMarker _ => cur
  | .essid s => { cur with has_essid := true, essid := s }
  | .essidFlag f => { cur with essid_flag := f }
  | .freq m e => { cur with has_freq := true, freq := (m, e) }
  | .freqFlag _ => cur
  | .mode m => { cur with has_mode := true, mode := m }
  | .bitrate b => { cur with has_bitrate := true, bitrate := b }
  | .bitrateFlag _ => cur

/-- Worker for the result aggregator: `cur` is the record opened by the
most recent new-access-point marker, `none` before the first marker. -/
def aggAux (cur : Option wapi_scan_info_t) :
    List FieldRecord → Except ScanError (List wapi_scan_info_t)
  | [] => .ok cur.toList
  | fr :: fs =>
    match fr, cur with
    | .apMarker a, none => aggAux (some (newInfo a)) fs
    | .apMarker a, some c =>
      match aggAux (some (newInfo a)) fs with
      | .ok l => .ok (c :: l)
      | .error e => .error e
    | _, none => .error .ProtocolError
    | _, some c => aggAux (some (wapi_scan_event c fr)) fs

/-- Modelled from the spec: the result aggregator of section 4.3.  Groups
the decoded fields into access-point records in first-seen order; a
non-marker field before the first marker is a protocol error. -/
def aggregate (fs : List FieldRecord) : Except ScanError (List wapi_scan_info_t) :=
  aggAux none fs

/-- The decode-and-aggregate pipeline run by `wapi_scan_coll` on the
fetched raw buffer. -/
def wapi_scan_decode (buf : List Nat) : Except ScanError (List wapi_scan_info_t) :=
  match decodeFields buf with
  | .ok fs => aggregate fs
  | .error e => .error e

/-- Outcome of one raw-buffer fetch through the control channel, as seen
by `wapi_scan_coll`: the filled buffer, a buffer-too-small report
(optionally carrying the size the kernel says is required), or a typed
failure. -/
inductive FetchResult where
  | ok (bytes : List Nat)
  | tooSmall (required : Option Nat)
  | failed (e : ScanError)
deriving DecidableEq

/-- Modelled from the spec: the buffer-growth loop of `wapi_scan_coll`
(section 4.1): on a too-small report, resize to the kernel-reported
required size when given, double otherwise, and retry the same fetch; a
budget of `tries` fetch attempts, exhausted means `BufferTooSmall`. -/
def collectFetch (fetch : Nat → FetchResult) : Nat → Nat → Except ScanError (List Nat)
  | 0, _ => .error .BufferTooSmall
  | tries + 1, size =>
    match fetch size with
    | .ok bytes => .ok bytes
    | .tooSmall (some req) => collectFetch fetch tries req
    | .tooSmall none => collectFetch fetch tries (2 * size)
    | .failed e => .error e

/-- Modelled from the spec: `wapi_scan_coll` (declared in `wapi.h`):
fetch the raw result buffer through the control channel, growing it as
needed, then decode and aggregate it into the result list. -/
def wapi_scan_coll (fetch : Nat → FetchResult) (tries size : Nat) :
    Except ScanError (List wapi_scan_info_t) :=
  match collectFetch fetch tries size with
  | .ok buf => wapi_scan_decode buf
  | .error e => .error e

/-- Phases of one scan session, from the specification's state machine
(section 3): Idle, Requested, Polling, Ready, Failed. -/
inductive ScanPhase where
  | Idle
  | Requested
  | Polling
  | Ready
  | Failed
deriving DecidableEq

/-- Observable events of the scan protocol: each call together with its
outcome.  `initiateOk` is a successful `wapi_scan_init`, `statusReady` a
`wapi_scan_stat` call reporting data ready, and so on. -/
inductive ScanEv where
  | initiateOk
  | initiateFail (e : ScanError)
  | statusReady
  | statusNotReady
  | statusFail (e : ScanError)
  | collectOk
  | collectNotReady
deriving DecidableEq

/-- Modelled from the spec: the transition relation of the scan state
machine (section 4.1).  `initiate` moves Idle to Requested (a failed
initiate leaves the session Idle); `status` moves Requested or Polling to
Ready, Polling or Failed; `collect` moves Ready back to Idle, or reports
a retryable not-ready. -/
inductive ScanStep : ScanPhase → ScanEv → ScanPhase → Prop where
  | initOk : ScanStep .Idle .initiateOk .Requested
  | initFail (e : ScanError) : ScanStep .Idle (.initiateFail e) .Idle
  | statReadyR : ScanStep .Requested .statusReady .Ready
  | statReadyP : ScanStep .Polling .statusReady .Ready
  | statNotReadyR : ScanStep .Requested .statusNotReady .Polling
  | statNotReadyP : ScanStep .Polling .statusNotReady .Polling
  | statFailR (e : ScanError) : ScanStep .Requested (.statusFail e) .Failed
  | statFailP (e : ScanError) : ScanStep .Polling (.statusFail e) .Failed
  | collOk : ScanStep .Ready .collectOk .Idle
  | collNotReady : ScanStep .Ready .collectNotReady .Ready

/-- A run of the scan state machine: `ScanTrace p es q` says the event
sequence `es` can take a session from phase `p` to phase `q`. -/
inductive ScanTrace : ScanPhase → List ScanEv → ScanPhase → Prop where
  | nil (p : ScanPhase) : ScanTrace p [] p
  | cons {p q r : ScanPhase} {e : ScanEv} {es : List ScanEv} :
      ScanStep p e q → ScanTrace q es r → ScanTrace p (e :: es) r

/-- Linear search for the least `n` with `1024 * t < (2 * n + 1) ^ 10`,
used to round `10 ^ (x / 10)` to the nearest integer when `t = 10 ^ x`
(see `wapi_dbm2mwatt`).  The fuel only bounds the search. -/
def dbm2mwattAux (t : Nat) : Nat → Nat → Nat
  | 0, n => n
  | fuel + 1, n =>
    if 1024 * t < (2 * n + 1) ^ 10 then n else dbm2mwattAux t fuel (n + 1)

/-- Modelled from the spec: `wapi_dbm2mwatt` (declared in `wapi.h`),
mW = 10 ^ (dBm / 10) rounded to the nearest integer (section 4.4).
For `x ≥ 0` the rounding is characterized without real arithmetic:
`n = round (10 ^ (x / 10))` exactly when
`(2n - 1) ^ 10 < 2 ^ 10 * 10 ^ x < (2n + 1) ^ 10`
(raising `n - 1/2 < 10 ^ (x / 10) < n + 1/2` to the 10th power; no tie is
possible since an odd 10th power never equals `2 ^ (x + 10) * 5 ^ x`), so
the result is the least `n` with `2 ^ 10 * 10 ^ x < (2n + 1) ^ 10`.  For
negative `x` the value `10 ^ (x / 10)` lies in (0, 1) and rounds to 1
exactly when `10 ^ (x / 10) ≥ 1/2`, that is `10 ^ (-x) ≤ 2 ^ 10`, that is
`x ≥ -3`.  The search fuel `10 ^ (x / 10 + 1) + 2` exceeds the result. -/
def wapi_dbm2mwatt (dbm : Int) : Int :=
  if 0 ≤ dbm then
    Int.ofNat (dbm2mwattAux (10 ^ dbm.toNat) (10 ^ (dbm.toNat / 10 + 1) + 2) 0)
  else if -3 ≤ dbm then 1 else 0

/-- Linear search for the least `d` with `t < 10 ^ (2 * d + 1)`, used to
round `10 * log10 m` to the nearest integer when `t = m ^ 20` (see
`wapi_mwatt2dbm`).  The fuel only bounds the search. -/
def mwatt2dbmAux (t : Nat) : Nat → Nat → Nat
  | 0, d => d
  | fuel + 1, d =>
    if t < 10 ^ (2 * d + 1) then d else mwatt2dbmAux t fuel (d + 1)

/-- Modelled from the spec: `wapi_mwatt2dbm` (declared in `wapi.h`),
dBm = 10 * log10 (mW) rounded to the nearest integer (section 4.4).  For
`m ≥ 1` the rounding is characterized without real arithmetic:
`d = round (10 * log10 m)` exactly when `10 ^ (2d - 1) < m ^ 20 < 10 ^ (2d + 1)`
(exponentiating `d - 1/2 < 10 * log10 m < d + 1/2` by `x ↦ 10 ^ (2x)`; no
tie is possible since a 20th power never equals an odd power of 10), so
the result is the least `d` with `m ^ 20 < 10 ^ (2d + 1)`.  The logarithm
is undefined for `m ≤ 0`; the model returns 0 there.  The search fuel
`10 * m + 10` exceeds the result. -/
def wapi_mwatt2dbm (mwatt : Int) : Int :=
  if mwatt ≤ 0 then 0
  else Int.ofNat (mwatt2dbmAux (mwatt.toNat ^ 20) (10 * mwatt.toNat + 10) 0)

/-- Whether a byte is horizontal whitespace (space or tab), the column
separator of the textual status listing. -/
def isSpaceByte (c : Nat) : Bool :=
  c == 32 || c == 9

/-- The leading token of a status-listing line: the first maximal run of
non-whitespace bytes, after any leading column whitespace. -/
def leadingToken (line : List Nat) : List Nat :=
  (line.dropWhile (fun c => isSpaceByte c)).takeWhile (fun c => !isSpaceByte c)

/-- Modelled from the spec: `wapi_get_ifnames` (declared in `wapi.h`),
which parses the `/proc/net/wireless` status listing: the first two lines
are the fixed header of that format and are skipped; every following data
line contributes the leading interface-name token, in file order
(sections 6 and 8; lines are byte lists). -/
def wapi_get_ifnames (lines : List (List Nat)) : List (List Nat) :=
  (lines.drop 2).map leadingToken

/-- A wellformed data line of the status listing, split as leading
whitespace `w`, a nonempty interface-name token `n`, and a remainder `r`
that is empty or starts with whitespace. -/
def goodLine (w n r : List Nat) : Bool :=
  w.all isSpaceByte && !n.isEmpty && n.all (fun c => !isSpaceByte c) &&
    (match r with
     | [] => true
     | c :: _ => isSpaceByte c)

/-- What the device reports when asked for its access point: a concrete
address, the pseudo-address for "any", or the pseudo-address for "off". -/
inductive APReport where
  | addr (a : List Nat)
  | any
  | off
deriving DecidableEq

/-- Modelled from the spec: `wapi_make_broad_ether` (declared in
`wapi.h`) builds the ethernet broadcast address, an `ARPHRD_ETHER`-family
socket address whose 6 data bytes are all 0xFF. -/
def wapi_make_broad_ether : sockaddr where
  sa_family := ARPHRD_ETHER
  sa_data := [255, 255, 255, 255, 255, 255]

/-- Modelled from the spec: `wapi_make_null_ether` (declared in `wapi.h`)
builds the ethernet NULL address, an `ARPHRD_ETHER`-family socket address
whose 6 data bytes are all zero. -/
def wapi_make_null_ether : sockaddr where
  sa_family := ARPHRD_ETHER
  sa_data := [0, 0, 0, 0, 0, 0]

/-- Modelled from the spec: the successful path of `wapi_get_ap`
(documented in `wapi.h` lines 190-195): the returned socket address is of
the `ARPHRD_ETHER` family; a device report of "any" yields the broadcast
ethernet address and "off" the NULL ethernet address. -/
def wapi_get_ap (report : APReport) : sockaddr :=
  match report with
  | .addr a => { sa_family := ARPHRD_ETHER, sa_data := a }
  | .any => wapi_make_broad_ether
  | .off => wapi_make_null_ether

/-- A buffer that ends in the middle of a record: after zero or more
complete records, either a lone tag byte remains (fewer bytes than the
two-byte header requires) or a header whose declared payload length
exceeds the remaining bytes. -/
inductive EndsMidRecord : List Nat → Prop where
  | header (tag : Nat) : EndsMidRecord [tag]
  | payload (tag len : Nat) (rest : List Nat) :
      rest.length < len → EndsMidRecord (tag :: len :: rest)
  | step (tag len : Nat) (rest : List Nat) :
      len ≤ rest.length → EndsMidRecord (rest.drop len) →
      EndsMidRecord (tag :: len :: rest)

/-- A buffer that is a concatenation of complete records (each payload as
long as its header declares). -/
inductive Chunked : List Nat → Prop where
  | nil : Chunked []
  | cons (tag len : Nat) (payload rest : List Nat) :
      payload.length = len → Chunked rest →
      Chunked (tag :: len :: (payload ++ rest))

/-- A control-channel oracle for the regrow scenario: every fetch with a
buffer smaller than 4096 reports that 4096 bytes are required; a fetch
with 4096 bytes returns one complete marker record. -/
def fetchOracle4096 (size : Nat) : FetchResult :=
  if size < 4096 then .tooSmall (some 4096)
  else .ok [1, 6, 0, 0, 0, 0, 0, 0]

deriving instance DecidableEq for Except

/-- The decoder worker does not depend on the exact fuel value as long as
the fuel covers the buffer length (each step consumes at least two
bytes). -/
theorem decodeFieldsAux_congr :
    ∀ (f g : Nat) (buf : List Nat), buf.length ≤ f → buf.length ≤ g →
      decodeFieldsAux f buf = decodeFieldsAux g buf := by
  intro f
  induction f with
  | zero =>
    intro g buf hf hg
    have hb : buf = [] := List.eq_nil_of_length_eq_zero (Nat.le_zero.mp hf)
    subst hb
    cases g <;> rfl
  | succ f ih =>
    intro g buf hf hg
    match buf with
    | [] => cases g <;> rfl
    | [x] => cases g <;> rfl
    | tag :: len :: rest =>
      have hlf : rest.length + 2 ≤ f + 1 := by simpa using hf
      have hlg : rest.length + 2 ≤ g := by simpa using hg
      obtain ⟨g0, rfl⟩ : ∃ g0, g = g0 + 1 := ⟨g - 1, by omega⟩
      by_cases hl : len ≤ rest.length
      · have hrec : decodeFieldsAux f (rest.drop len) = decodeFieldsAux g0 (rest.drop len) := by
          apply ih
          · rw [List.length_drop]; omega
          · rw [List.length_drop]; omega
        simp only [decodeFieldsAux, if_pos hl, hrec]
      · simp only [decodeFieldsAux, if_neg hl]

/-- Unfolding the decoder on a buffer whose first declared payload length
fits in the remaining bytes. -/
theorem decodeFields_cons_general (tag len : Nat) (rest : List Nat)
    (h : len ≤ rest.length) :
    decodeFields (tag :: len :: rest) =
      match decodeTag tag (rest.take len) with
      | some fr =>
        match decodeFields (rest.drop len) with
        | .ok fs => .ok (fr :: fs)
        | .error e => .error e
      | none => decodeFields (rest.drop len) := by
  have hrec : decodeFieldsAux (rest.length + 1) (rest.drop len) =
      decodeFieldsAux (rest.drop len).length (rest.drop len) := by
    apply decodeFieldsAux_congr
    · rw [List.length_drop]; omega
    · exact le_refl _
  simp only [decodeFields, List.length_cons, decodeFieldsAux, if_pos h, hrec]

/-- Unfolding the decoder on a buffer starting with one complete record:
the record is dispatched on its tag and decoding continues behind its
payload. -/
theorem decodeFields_cons (tag len : Nat) (payload rest : List Nat)
    (h : payload.length = len) :
    decodeFields (tag :: len :: (payload ++ rest)) =
      match decodeTag tag payload with
      | some fr =>
        match decodeFields rest with
        | .ok fs => .ok (fr :: fs)
        | .error e => .error e
      | none => decodeFields rest := by
  subst h
  rw [decodeFields_cons_general tag payload.length (payload ++ rest)
    (by simp), List.take_left, List.drop_left]

/-- Unfolding the decoder on a buffer that is exactly one complete
record. -/
theorem decodeFields_last (tag len : Nat) (payload : List Nat)
    (h : payload.length = len) :
    decodeFields (tag :: len :: payload) =
      match decodeTag tag payload with
      | some fr => .ok [fr]
      | none => .ok [] := by
  subst h
  rw [decodeFields_cons_general tag payload.length payload (le_refl _),
    List.take_length, List.drop_length]
  cases decodeTag tag payload <;> rfl

/-- The decoder fails on a buffer whose first declared payload length
exceeds the remaining bytes. -/
theorem decodeFields_too_short (tag len : Nat) (rest : List Nat)
    (h : rest.length < len) :
    decodeFields (tag :: len :: rest) = .error .TruncatedStream := by
  have hn : ¬ len ≤ rest.length := by omega
  simp only [decodeFields, List.length_cons, decodeFieldsAux, if_neg hn]

/-- C1: a buffer that ends mid-record (fewer bytes than a record header
requires, or a declared payload length exceeding the remaining bytes)
makes the decoder, the decode-and-aggregate pipeline, and the whole
`wapi_scan_coll` call that fetched it fail with `TruncatedStream`; no
partial field or access-point record is returned. -/
theorem scan_truncated_stream (buf : List Nat) (h : EndsMidRecord buf) :
    decodeFields buf = .error .TruncatedStream ∧
    wapi_scan_decode buf = .error .TruncatedStream ∧
    (∀ (fetch : Nat → FetchResult) (tries size : Nat),
      collectFetch fetch tries size = .ok buf →
      wapi_scan_coll fetch tries size = .error .TruncatedStream) := by
  have hd : decodeFields buf = .error .TruncatedStream := by
    induction h with
    | header tag => rfl
    | payload tag len rest hlt => exact decodeFields_too_short tag len rest hlt
    | step tag len rest hle hmid ih =>
      rw [decodeFields_cons_general tag len rest hle]
      cases hdt : decodeTag tag (rest.take len) <;> simp [ih]
  refine ⟨hd, ?_, ?_⟩
  · simp [wapi_scan_decode, hd]
  · intro fetch tries size hc
    simp [wapi_scan_coll, hc, wapi_scan_decode, hd]

/-- C1 witness: the concrete buffer `[2, 5, 65]` declares a 5-byte ESSID
payload but carries a single byte, and decoding it fails with
`TruncatedStream`. -/
theorem scan_truncated_stream_witness :
    EndsMidRecord [2, 5, 65] ∧
    wapi_scan_decode [2, 5, 65] = .error .TruncatedStream := by
  have h : EndsMidRecord [2, 5, 65] := .payload 2 5 [65] (by decide)
  exact ⟨h, (scan_truncated_stream [2, 5, 65] h).2.1⟩

/-- An unrecognized tag is decoded into no field record, whatever its
payload. -/
theorem decodeTag_unrecognized (tag : Nat) (payload : List Nat)
    (h : recognizedTag tag = false) : decodeTag tag payload = none := by
  have hn : ¬ (1 ≤ tag ∧ tag ≤ 8) := by simpa [recognizedTag] using h
  rw [decodeTag, TAG_NEWAP, TAG_ESSID, TAG_ESSID_FLAG, TAG_FREQ, TAG_FREQ_FLAG,
    TAG_MODE, TAG_BITRATE, TAG_BITRATE_FLAG]
  rw [if_neg (show ¬ tag = 1 by omega), if_neg (show ¬ tag = 2 by omega),
    if_neg (show ¬ tag = 3 by omega), if_neg (show ¬ tag = 4 by omega),
    if_neg (show ¬ tag = 5 by omega), if_neg (show ¬ tag = 6 by omega),
    if_neg (show ¬ tag = 7 by omega), if_neg (show ¬ tag = 8 by omega)]

/-- Removing one complete unrecognized record sitting at a record
boundary does not change what the decoder produces. -/
theorem decodeFields_skip (tag len : Nat) (payload : List Nat)
    (htag : recognizedTag tag = false) (hlen : payload.length = len)
    (pre : List Nat) (hpre : Chunked pre) :
    ∀ suf : List Nat,
      decodeFields (pre ++ tag :: len :: (payload ++ suf)) =
        decodeFields (pre ++ suf) := by
  induction hpre with
  | nil =>
    intro suf
    simp only [List.nil_append]
    rw [decodeFields_cons tag len payload suf hlen,
      decodeTag_unrecognized tag payload htag]
  | cons t l p rest hp hrest ih =>
    intro suf
    simp only [List.cons_append, List.append_assoc]
    rw [decodeFields_cons t l p (rest ++ tag :: len :: (payload ++ suf)) hp,
      decodeFields_cons t l p (rest ++ suf) hp, ih suf]

/-- C2: a complete record with an unrecognized tag, interleaved at a
record boundary between complete records, is skipped by its declared
length: the decode-and-aggregate pipeline produces exactly the same
access-point records as for the buffer with that record removed. -/
theorem scan_skip_unrecognized (tag len : Nat) (payload : List Nat)
    (htag : recognizedTag tag = false) (hlen : payload.length = len)
    (pre : List Nat) (hpre : Chunked pre) (suf : List Nat) :
    wapi_scan_decode (pre ++ tag :: len :: (payload ++ suf)) =
      wapi_scan_decode (pre ++ suf) := by
  rw [wapi_scan_decode, wapi_scan_decode,
    decodeFields_skip tag len payload htag hlen pre hpre suf]

/-- C2 witness: dropping the complete unrecognized record
`[99, 3, 7, 7, 7]` (tag 99, declared length 3) between a marker record
and an ESSID record leaves the pipeline output unchanged. -/
theorem scan_skip_unrecognized_witness :
    recognizedTag 99 = false ∧
    wapi_scan_decode [1, 6, 0, 0, 0, 0, 0, 0, 99, 3, 7, 7, 7, 2, 1, 65] =
      wapi_scan_decode [1, 6, 0, 0, 0, 0, 0, 0, 2, 1, 65] := by
  have hpre : Chunked [1, 6, 0, 0, 0, 0, 0, 0] :=
    Chunked.cons 1 6 [0, 0, 0, 0, 0, 0] [] rfl Chunked.nil
  exact ⟨by decide,
    scan_skip_unrecognized 99 3 [7, 7, 7] (by decide) rfl
      [1, 6, 0, 0, 0, 0, 0, 0] hpre [2, 1, 65]⟩

/-- C3: a buffer holding two new-access-point markers, each followed by
exactly one ESSID record, collects into exactly two records, in marker
order, each carrying the ESSID that followed its own marker, with every
other optional field absent. -/
theorem scan_two_markers (a1 s1 a2 s2 : List Nat)
    (h1 : a1.length = 6) (h2 : a2.length = 6)
    (_hs1 : s1.length ≤ 32) (_hs2 : s2.length ≤ 32) :
    wapi_scan_decode
        (TAG_NEWAP :: 6 :: (a1 ++ (TAG_ESSID :: s1.length :: (s1 ++
          (TAG_NEWAP :: 6 :: (a2 ++ (TAG_ESSID :: s2.length :: s2))))))) =
      .ok [{ ap := a1, has_essid := true, essid := s1,
             essid_flag := .WAPI_ESSID_ON, has_freq := false, freq := (0, 0),
             has_mode := false, mode := .WAPI_MODE_AUTO, has_bitrate := false,
             bitrate := 0 },
           { ap := a2, has_essid := true, essid := s2,
             essid_flag := .WAPI_ESSID_ON, has_freq := false, freq := (0, 0),
             has_mode := false, mode := .WAPI_MODE_AUTO, has_bitrate := false,
             bitrate := 0 }] := by
  have d : decodeFields
      (TAG_NEWAP :: 6 :: (a1 ++ (TAG_ESSID :: s1.length :: (s1 ++
        (TAG_NEWAP :: 6 :: (a2 ++ (TAG_ESSID :: s2.length :: s2))))))) =
      .ok [.apMarker a1, .essid s1, .apMarker a2, .essid s2] := by
    rw [decodeFields_cons TAG_NEWAP 6 a1 _ h1,
      decodeFields_cons TAG_ESSID s1.length s1 _ rfl,
      decodeFields_cons TAG_NEWAP 6 a2 _ h2,
      decodeFields_last TAG_ESSID s2.length s2 rfl]
    simp [decodeTag, TAG_NEWAP, TAG_ESSID]
  rw [wapi_scan_decode, d]
  simp [aggregate, aggAux, wapi_scan_event, newInfo]

/-- C3 witness: two concrete marker-plus-ESSID groups collect into the
two expected records in marker order. -/
theorem scan_two_markers_witness :
    wapi_scan_decode [1, 6, 10, 20, 30, 40, 50, 60, 2, 3, 110, 101, 116,
        1, 6, 1, 2, 3, 4, 5, 6, 2, 2, 97, 98] =
      .ok [{ ap := [10, 20, 30, 40, 50, 60], has_essid := true,
             essid := [110, 101, 116], essid_flag := .WAPI_ESSID_ON,
             has_freq := false, freq := (0, 0), has_mode := false,
             mode := .WAPI_MODE_AUTO, has_bitrate := false, bitrate := 0 },
           { ap := [1, 2, 3, 4, 5, 6], has_essid := true, essid := [97, 98],
             essid_flag := .WAPI_ESSID_ON, has_freq := false, freq := (0, 0),
             has_mode := false, mode := .WAPI_MODE_AUTO, has_bitrate := false,
             bitrate := 0 }] :=
  scan_two_markers [10, 20, 30, 40, 50, 60] [110, 101, 116]
    [1, 2, 3, 4, 5, 6] [97, 98] rfl rfl (by decide) (by decide)

/-- C4: a non-marker field record before the first new-access-point
marker makes the aggregator, and hence the whole collect pipeline of any
buffer decoding to such a field sequence, fail with `ProtocolError`; the
leading field is reported, never silently dropped. -/
theorem scan_field_before_marker :
    (∀ (fr : FieldRecord) (fs : List FieldRecord),
      (∀ a, fr ≠ .apMarker a) →
      aggregate (fr :: fs) = .error .ProtocolError) ∧
    (∀ (buf : List Nat) (fr : FieldRecord) (fs : List FieldRecord),
      decodeFields buf = .ok (fr :: fs) → (∀ a, fr ≠ .apMarker a) →
      wapi_scan_decode buf = .error .ProtocolError) := by
  have hagg : ∀ (fr : FieldRecord) (fs : List FieldRecord),
      (∀ a, fr ≠ .apMarker a) →
      aggregate (fr :: fs) = .error .ProtocolError := by
    intro fr fs h
    cases fr with
    | apMarker a => exact absurd rfl (h a)
    | essid s => rfl
    | essidFlag f => rfl
    | freq m e => rfl
    | freqFlag f => rfl
    | mode m => rfl
    | bitrate b => rfl
    | bitrateFlag f => rfl
  refine ⟨hagg, ?_⟩
  intro buf fr fs hbuf h
  simp only [wapi_scan_decode, hbuf]
  exact hagg fr fs h

/-- C4 witness: the buffer `[2, 1, 65]` decodes to one ESSID field with
no preceding marker, and collecting it fails with `ProtocolError`. -/
theorem scan_field_before_marker_witness :
    decodeFields [2, 1, 65] = .ok [.essid [65]] ∧
    wapi_scan_decode [2, 1, 65] = .error .ProtocolError :=
  ⟨by decide,
    scan_field_before_marker.2 [2, 1, 65] (.essid [65]) [] (by decide)
      (fun a h => FieldRecord.noConfusion h)⟩

/-- C5: the caller-visible result of `wapi_scan_coll` is all-or-nothing:
when the fetched buffer fails to decode, the call returns that error and
no records, and when the call returns a list, that list is the complete
decode of the fetched buffer. -/
theorem scan_coll_all_or_nothing :
    (∀ (fetch : Nat → FetchResult) (tries size : Nat)
      (buf : List Nat) (e : ScanError),
      collectFetch fetch tries size = .ok buf →
      wapi_scan_decode buf = .error e →
      wapi_scan_coll fetch tries size = .error e) ∧
    (∀ (fetch : Nat → FetchResult) (tries size : Nat)
      (l : List wapi_scan_info_t),
      wapi_scan_coll fetch tries size = .ok l →
      ∃ buf, collectFetch fetch tries size = .ok buf ∧
        wapi_scan_decode buf = .ok l) := by
  constructor
  · intro fetch tries size buf e hfetch hdec
    simp only [wapi_scan_coll, hfetch]
    exact hdec
  · intro fetch tries size l h
    rw [wapi_scan_coll] at h
    cases hfetch : collectFetch fetch tries size with
    | ok buf => rw [hfetch] at h; exact ⟨buf, rfl, h⟩
    | error e => rw [hfetch] at h; exact absurd h (by simp)

/-- C5 witness: an oracle that immediately returns the truncated buffer
`[2, 5, 65]` makes the whole collect call fail with `TruncatedStream`,
returning no records. -/
theorem scan_coll_all_or_nothing_witness :
    collectFetch (fun _ => .ok [2, 5, 65]) 1 16 = .ok [2, 5, 65] ∧
    wapi_scan_coll (fun _ => .ok [2, 5, 65]) 1 16 = .error .TruncatedStream :=
  ⟨by decide,
    scan_coll_all_or_nothing.1 (fun _ => .ok [2, 5, 65]) 1 16 [2, 5, 65]
      .TruncatedStream (by decide) (by decide)⟩

/-- C6: the buffer-growth policy of `wapi_scan_coll`: an undersized
initial buffer is regrown to exactly the kernel-reported required size
(4096 when 4096 is reported) and the same fetch retried, succeeding
within the attempt budget; with no reported size the buffer is doubled
instead; a channel that keeps reporting too-small exhausts the bounded
budget and fails with `BufferTooSmall`. -/
theorem scan_coll_buffer_growth :
    (∀ (fetch : Nat → FetchResult) (bytes : List Nat) (size tries : Nat),
      (∀ s, s < 4096 → fetch s = .tooSmall (some 4096)) →
      fetch 4096 = .ok bytes → size < 4096 → 2 ≤ tries →
      collectFetch fetch tries size = .ok bytes) ∧
    (∀ (fetch : Nat → FetchResult) (bytes : List Nat) (size tries : Nat),
      fetch size = .tooSmall none → fetch (2 * size) = .ok bytes →
      2 ≤ tries → collectFetch fetch tries size = .ok bytes) ∧
    (∀ fetch : Nat → FetchResult,
      (∀ s, fetch s = .tooSmall none) →
      ∀ tries size, collectFetch fetch tries size = .error .BufferTooSmall) := by
  refine ⟨?_, ?_, ?_⟩
  · intro fetch bytes size tries hsmall hbig hsize htries
    obtain ⟨t, rfl⟩ : ∃ t, tries = t + 2 := ⟨tries - 2, by omega⟩
    simp only [collectFetch, hsmall size hsize, hbig]
  · intro fetch bytes size tries hfirst hsecond htries
    obtain ⟨t, rfl⟩ : ∃ t, tries = t + 2 := ⟨tries - 2, by omega⟩
    simp only [collectFetch, hfirst, hsecond]
  · intro fetch hall tries
    induction tries with
    | zero => intro size; rfl
    | succ t ih => intro size; simp only [collectFetch, hall size, ih]

/-- C6 witness: with the channel oracle `fetchOracle4096` and an
undersized initial 16-byte buffer, two allowed attempts suffice:
`wapi_scan_coll` regrows to exactly 4096 and collects the one record the
oracle returns there. -/
theorem scan_coll_buffer_growth_witness :
    collectFetch fetchOracle4096 2 16 = .ok [1, 6, 0, 0, 0, 0, 0, 0] ∧
    wapi_scan_coll fetchOracle4096 2 16 = .ok [newInfo [0, 0, 0, 0, 0, 0]] := by
  have h : collectFetch fetchOracle4096 2 16 = .ok [1, 6, 0, 0, 0, 0, 0, 0] :=
    scan_coll_buffer_growth.1 fetchOracle4096 [1, 6, 0, 0, 0, 0, 0, 0] 16 2
      (fun s hs => by simp [fetchOracle4096, hs]) (by decide) (by decide)
      (by decide)
  exact ⟨h, by decide⟩

/-- Splitting a run of the scan state machine at a list boundary. -/
theorem scanTrace_append {p r : ScanPhase} :
    ∀ (xs ys : List ScanEv), ScanTrace p (xs ++ ys) r →
      ∃ q, ScanTrace p xs q ∧ ScanTrace q ys r := by
  intro xs
  induction xs generalizing p with
  | nil => intro ys h; exact ⟨p, .nil p, h⟩
  | cons e es ih =>
    intro ys h
    cases h with
    | cons hstep htail =>
      obtain ⟨q, hq1, hq2⟩ := ih _ htail
      exact ⟨q, .cons hstep hq1, hq2⟩

/-- A session that never saw a successful initiate is still Idle. -/
theorem scanTrace_idle {es : List ScanEv} {q : ScanPhase}
    (h : ScanTrace .Idle es q) (hni : ScanEv.initiateOk ∉ es) : q = .Idle := by
  induction es generalizing q with
  | nil => cases h; rfl
  | cons e es ih =>
    cases h with
    | cons hstep htail =>
      have he : e ≠ .initiateOk := fun hc => hni (hc ▸ List.mem_cons_self e es)
      cases hstep with
      | initOk => exact absurd rfl he
      | initFail e =>
        exact ih htail (fun hc => hni (List.mem_cons_of_mem _ hc))

/-- C7: along every run of the scan state machine that starts Idle, a
`status` call can only report Ready after a successful `initiate` in that
session: `statusReady` in the trace is always preceded by `initiateOk`. -/
theorem scan_status_ready_after_initiate (pre suf : List ScanEv)
    (r : ScanPhase)
    (h : ScanTrace .Idle (pre ++ .statusReady :: suf) r) :
    ScanEv.initiateOk ∈ pre := by
  by_contra hni
  obtain ⟨q, h1, h2⟩ := scanTrace_append pre (.statusReady :: suf) h
  have hq : q = .Idle := scanTrace_idle h1 hni
  subst hq
  cases h2 with
  | cons hstep _ => cases hstep

/-- C7 witness: the run initiate-then-status-ready is a valid trace, and
the theorem recovers the initiate before the ready status. -/
theorem scan_status_ready_after_initiate_witness :
    ScanTrace .Idle [.initiateOk, .statusReady] .Ready ∧
    ScanEv.initiateOk ∈ [ScanEv.initiateOk] := by
  have h : ScanTrace .Idle [.initiateOk, .statusReady] .Ready :=
    .cons .initOk (.cons .statReadyR (.nil _))
  exact ⟨h, scan_status_ready_after_initiate [.initiateOk] [] .Ready h⟩

set_option maxRecDepth 1000000 in
/-- C8: over the representative transmit-power range 0..30 dBm, the
milliwatt conversion followed by the dBm conversion returns to within one
dBm of the start: the two rounded conversions are inverse up to ±1. -/
theorem txpower_conversion_roundtrip (x : Nat) (hx : x ≤ 30) :
    (wapi_mwatt2dbm (wapi_dbm2mwatt (Int.ofNat x)) - Int.ofNat x).natAbs ≤ 1 := by
  revert x
  decide

set_option maxRecDepth 100000 in
/-- C8 witness: 7 dBm converts to 5 mW and back to within one dBm. -/
theorem txpower_conversion_roundtrip_witness :
    wapi_dbm2mwatt (Int.ofNat 7) = 5 ∧
    (wapi_mwatt2dbm (wapi_dbm2mwatt (Int.ofNat 7)) - Int.ofNat 7).natAbs ≤ 1 :=
  ⟨by decide, txpower_conversion_roundtrip 7 (by decide)⟩

/-- Dropping while a predicate holds ignores a leading block on which it
holds everywhere. -/
theorem dropWhile_append_all {p : Nat → Bool} :
    ∀ (w y : List Nat), (∀ c ∈ w, p c = true) →
      (w ++ y).dropWhile p = y.dropWhile p := by
  intro w
  induction w with
  | nil => intro y _; rfl
  | cons c cs ih =>
    intro y hw
    rw [List.cons_append, List.dropWhile_cons,
      if_pos (hw c (List.mem_cons_self c cs)),
      ih y (fun d hd => hw d (List.mem_cons_of_mem c hd))]

/-- Taking while a predicate holds keeps a leading block on which it
holds everywhere. -/
theorem takeWhile_append_all {p : Nat → Bool} :
    ∀ (n y : List Nat), (∀ c ∈ n, p c = true) →
      (n ++ y).takeWhile p = n ++ y.takeWhile p := by
  intro n
  induction n with
  | nil => intro y _; rfl
  | cons c cs ih =>
    intro y hn
    rw [List.cons_append, List.takeWhile_cons,
      if_pos (hn c (List.mem_cons_self c cs)),
      ih y (fun d hd => hn d (List.mem_cons_of_mem c hd)), List.cons_append]

/-- On a wellformed data line, the leading token extracted after variable
column whitespace is exactly the interface-name block. -/
theorem leadingToken_split (w n r : List Nat) (hg : goodLine w n r = true) :
    leadingToken (w ++ n ++ r) = n := by
  simp only [goodLine, Bool.and_eq_true, List.all_eq_true] at hg
  obtain ⟨⟨⟨hw, hne⟩, hn⟩, hr⟩ := hg
  cases n with
  | nil => simp [List.isEmpty] at hne
  | cons c ns =>
    have hc : isSpaceByte c = false := by
      simpa using hn c (List.mem_cons_self c ns)
    rw [leadingToken, List.append_assoc,
      dropWhile_append_all w ((c :: ns) ++ r) hw, List.cons_append,
      List.dropWhile_cons, if_neg (by simp [hc])]
    rw [show (c :: (ns ++ r)) = (c :: ns) ++ r from rfl,
      takeWhile_append_all (c :: ns) r hn]
    cases r with
    | nil => simp
    | cons c2 rs =>
      have hr2 : isSpaceByte c2 = true := hr
      rw [List.takeWhile_cons, if_neg (by simp [hr2]), List.append_nil]

/-- C9: a status listing made of two header lines and three data lines
enumerates exactly the three interface names, in file order, each the
leading name token of its own data line, whatever column whitespace
surrounds it. -/
theorem get_ifnames_three_lines
    (hdr1 hdr2 w1 n1 r1 w2 n2 r2 w3 n3 r3 : List Nat)
    (hg1 : goodLine w1 n1 r1 = true) (hg2 : goodLine w2 n2 r2 = true)
    (hg3 : goodLine w3 n3 r3 = true) :
    wapi_get_ifnames
        [hdr1, hdr2, w1 ++ n1 ++ r1, w2 ++ n2 ++ r2, w3 ++ n3 ++ r3] =
      [n1, n2, n3] := by
  have hu : wapi_get_ifnames
      [hdr1, hdr2, w1 ++ n1 ++ r1, w2 ++ n2 ++ r2, w3 ++ n3 ++ r3] =
      [leadingToken (w1 ++ n1 ++ r1), leadingToken (w2 ++ n2 ++ r2),
        leadingToken (w3 ++ n3 ++ r3)] := rfl
  rw [hu, leadingToken_split w1 n1 r1 hg1, leadingToken_split w2 n2 r2 hg2,
    leadingToken_split w3 n3 r3 hg3]

/-- C9 witness: a concrete listing (two header lines, then data lines for
interfaces named by the byte strings for wlan0, eth1 and wlp2s0 with
varying leading whitespace and trailing columns) enumerates the three
names in file order. -/
theorem get_ifnames_three_lines_witness :
    wapi_get_ifnames
        [[73, 110, 116, 101, 114], [102, 97, 99, 101],
          [32, 119, 108, 97, 110, 48, 32, 48],
          [9, 9, 101, 116, 104, 49, 32, 48, 48],
          [119, 108, 112, 50, 115, 48, 9, 48]] =
      [[119, 108, 97, 110, 48], [101, 116, 104, 49],
        [119, 108, 112, 50, 115, 48]] :=
  get_ifnames_three_lines [73, 110, 116, 101, 114] [102, 97, 99, 101]
    [32] [119, 108, 97, 110, 48] [32, 48]
    [9, 9] [101, 116, 104, 49] [32, 48, 48]
    [] [119, 108, 112, 50, 115, 48] [9, 48]
    (by decide) (by decide) (by decide)

/-- C10: every successful `wapi_get_ap` result is an `ARPHRD_ETHER`
family socket address; a device report of "any" yields exactly the
broadcast ethernet address built by `wapi_make_broad_ether`, and "off"
exactly the NULL ethernet address built by `wapi_make_null_ether`. -/
theorem get_ap_ether_family :
    (∀ report : APReport, (wapi_get_ap report).sa_family = ARPHRD_ETHER) ∧
    wapi_get_ap .any = wapi_make_broad_ether ∧
    wapi_get_ap .off = wapi_make_null_ether :=
  ⟨fun report => by cases report <;> rfl, rfl, rfl⟩
